import Mathlib

/-!
Shallow embedding of the FastAPI-for-fun repository: a note-sharing service
(`src/app/routers/notes.py`, with models in `src/app/models/models.py` and the
SQLite schema in `src/app/core/database.py`) and a chemistry read/update API
(`src/routers/atoms.py`, `src/security.py`, `src/schemas.py`, `src/models.py`).

The SQLite `notes` table is modelled as a `List Note`; a SQLAlchemy session over
the `atom` table as a `List Atom`.  Each route handler becomes a pure function
from the store (plus its inputs) to the new store and an HTTP outcome
(`Except HTTPError α`): a raised `HTTPException` is `.error`, and since every
`raise` in the handlers happens before any mutation, the error branches return
the store unchanged.  `time.time()` timestamps are idealised as rationals;
`created_at` values as naturals.
-/

/-- An HTTPException: status code and detail message. -/
structure HTTPError where
  status : Nat
  detail : String
deriving Repr, DecidableEq

/-- One row of the `notes` table (`src/app/core/database.py`, `init_db`):
id INTEGER PRIMARY KEY, topic TEXT, content TEXT, author TEXT,
created_at DATETIME, votes INTEGER, pinned BOOLEAN. -/
structure Note where
  id : Nat
  topic : String
  content : String
  author : String
  created_at : Nat
  votes : Nat
  pinned : Bool
deriving Repr, DecidableEq

/-- `NoteCreate` (`src/app/models/models.py`): `author` is `none` when the
payload omits the field (pydantic then applies the default "Anonymous"). -/
structure NoteCreate where
  topic : String
  content : String
  author : Option String
deriving Repr, DecidableEq

/-- Pydantic validation of `NoteCreate`: topic 1..100 chars, content 1..5000
chars, author at most 50 chars when supplied. -/
def NoteCreateValid (p : NoteCreate) : Prop :=
  1 ≤ p.topic.length ∧ p.topic.length ≤ 100 ∧
  1 ≤ p.content.length ∧ p.content.length ≤ 5000 ∧
  (∀ a, p.author = some a → a.length ≤ 50)

instance (p : NoteCreate) : Decidable (NoteCreateValid p) := by
  unfold NoteCreateValid
  exact inferInstance

/-- `NoteUpdate` (`src/app/models/models.py`): every field optional, `none`
meaning "absent from the payload". -/
structure NoteUpdate where
  topic : Option String
  content : Option String
  author : Option String
deriving Repr, DecidableEq

/-- Pydantic validation of `NoteUpdate`: a supplied topic has 1..100 chars, a
supplied content 1..5000 chars, a supplied author at most 50 chars. -/
def NoteUpdateValid (u : NoteUpdate) : Prop :=
  (∀ t, u.topic = some t → 1 ≤ t.length ∧ t.length ≤ 100) ∧
  (∀ c, u.content = some c → 1 ≤ c.length ∧ c.length ≤ 5000) ∧
  (∀ a, u.author = some a → a.length ≤ 50)

instance (u : NoteUpdate) : Decidable (NoteUpdateValid u) := by
  unfold NoteUpdateValid
  exact inferInstance

/-- The update payload with zero present fields. -/
def NoteUpdate.empty : NoteUpdate := ⟨none, none, none⟩

/-- `SELECT * FROM notes WHERE id = ?` followed by `fetchone()`. -/
def findNote (db : List Note) (note_id : Nat) : Option Note :=
  db.find? (fun n => n.id == note_id)

/-- Python truthiness of an `Optional[str]` query parameter: `if topic:` is
taken only when the parameter is present and non-empty. -/
def truthy (s : Option String) : Bool :=
  match s with
  | none => false
  | some t => !t.isEmpty

/-- ASCII lower-casing, the case folding SQLite's default `LIKE` applies. -/
def asciiLower (c : Char) : Char :=
  if 'A' ≤ c ∧ c ≤ 'Z' then Char.ofNat (c.toNat + 32) else c

/-- SQLite `LIKE` pattern matching (no ESCAPE clause): `%` matches any
sequence of characters, `_` any single character, and any other pattern
character matches itself up to ASCII case. -/
def likeMatch : List Char → List Char → Bool
  | [], s => s.isEmpty
  | a :: p2, s =>
    if a = '%' then
      s.tails.any (fun t => likeMatch p2 t)
    else
      match s with
      | [] => false
      | c :: s2 => (if a = '_' then true else asciiLower a == asciiLower c) && likeMatch p2 s2

/-- Case-insensitive (ASCII) test that `p` occurs at the very start of `s`:
the wildcard-free meaning of a `LIKE` pattern head. -/
def headMatchCI (p s : List Char) : Bool :=
  match p, s with
  | [], _ => true
  | _ :: _, [] => false
  | a :: p2, c :: s2 => (asciiLower a == asciiLower c) && headMatchCI p2 s2

/-- Case-insensitive (ASCII) substring containment: the documented, consistent
case rule realised by SQLite's default `LIKE` on the pattern `%needle%`. -/
def containsCI (needle : List Char) : List Char → Bool
  | [] => headMatchCI needle []
  | c :: s2 => headMatchCI needle (c :: s2) || containsCI needle s2

/-- `s` holds no SQL `LIKE` metacharacter. -/
def noWildcards (s : List Char) : Bool :=
  s.all (fun c => !(c == '%') && !(c == '_'))

/-- Insert a row into a list already ordered by `created_at` descending. -/
def insertDesc (n : Note) : List Note → List Note
  | [] => [n]
  | m :: tl => if m.created_at ≤ n.created_at then n :: m :: tl else m :: insertDesc n tl

/-- `ORDER BY created_at DESC` (SQLite leaves the order of ties unspecified;
any descending sort is a faithful model). -/
def sortByCreatedDesc (db : List Note) : List Note :=
  db.foldr insertDesc []

/-- `read_notes` (`src/app/routers/notes.py`): the query starts as
`SELECT * FROM notes WHERE 1=1`; each truthy parameter appends its condition
(`topic = ?`, `author = ?`, `content LIKE ?` with the pattern `%search%`),
and the result is ordered by `created_at DESC`. -/
def read_notes (db : List Note) (topic author search : Option String) : List Note :=
  let db1 := if truthy topic then db.filter (fun n => n.topic == topic.getD "") else db
  let db2 := if truthy author then db1.filter (fun n => n.author == author.getD "") else db1
  let db3 :=
    if truthy search then
      db2.filter (fun n => likeMatch ('%' :: (search.getD "").data ++ ['%']) n.content.data)
    else db2
  sortByCreatedDesc db3

/-- `create_note` (`src/app/routers/notes.py`): INSERT of (topic, content,
author) — pydantic has already substituted "Anonymous" for an omitted author —
then the created row is re-fetched by `lastrowid`.  The storage layer assigns
the fresh id (`nextId`), `created_at = now`, `votes = 0`, `pinned = 0`. -/
def create_note (db : List Note) (nextId now : Nat) (p : NoteCreate) :
    List Note × Note :=
  let author := p.author.getD "Anonymous"
  let newNote : Note := ⟨nextId, p.topic, p.content, author, now, 0, false⟩
  (db ++ [newNote], newNote)

/-- Apply the present fields of a `NoteUpdate` to a row, as the dynamically
built `UPDATE notes SET ... WHERE id = ?` does. -/
def applyNoteUpdate (u : NoteUpdate) (n : Note) : Note :=
  { n with
    topic := u.topic.getD n.topic
    content := u.content.getD n.content
    author := u.author.getD n.author }

/-- `update_note` (`src/app/routers/notes.py`): 404 when the id does not
exist; when the payload has no present field (`if not update_fields`) the
existing row is returned unchanged with no UPDATE issued; otherwise the
present fields are applied and the row re-read. -/
def update_note (db : List Note) (note_id : Nat) (u : NoteUpdate) :
    List Note × Except HTTPError Note :=
  match findNote db note_id with
  | none => (db, .error ⟨404, "Note not found"⟩)
  | some existing_note =>
    if u.topic.isNone && u.content.isNone && u.author.isNone then
      (db, .ok existing_note)
    else
      let db2 := db.map (fun n => if n.id == note_id then applyNoteUpdate u n else n)
      match findNote db2 note_id with
      | none => (db2, .error ⟨404, "Note not found"⟩)
      | some updated_note => (db2, .ok updated_note)

/-- `vote_note` (`src/app/routers/notes.py`): 404 when the id does not exist;
otherwise `UPDATE notes SET votes = votes + 1 WHERE id = ?` and the row is
re-read and returned. -/
def vote_note (db : List Note) (note_id : Nat) :
    List Note × Except HTTPError Note :=
  match findNote db note_id with
  | none => (db, .error ⟨404, "Note not found"⟩)
  | some _ =>
    let db2 := db.map (fun n => if n.id == note_id then { n with votes := n.votes + 1 } else n)
    match findNote db2 note_id with
    | none => (db2, .error ⟨404, "Note not found"⟩)
    | some updated_note => (db2, .ok updated_note)

/-- `pin_note` (`src/app/routers/notes.py`): 404 when the id does not exist;
otherwise `UPDATE notes SET pinned = 1 WHERE id = ?` and the row is re-read
and returned. -/
def pin_note (db : List Note) (note_id : Nat) :
    List Note × Except HTTPError Note :=
  match findNote db note_id with
  | none => (db, .error ⟨404, "Note not found"⟩)
  | some _ =>
    let db2 := db.map (fun n => if n.id == note_id then { n with pinned := true } else n)
    match findNote db2 note_id with
    | none => (db2, .error ⟨404, "Note not found"⟩)
    | some updated_note => (db2, .ok updated_note)

/-- Iterate `vote_note` N times on the same id, threading the store. -/
def voteTimes (db : List Note) (note_id : Nat) : Nat → List Note
  | 0 => db
  | n + 1 => (vote_note (voteTimes db note_id n) note_id).1

/-- Iterate `pin_note` N times on the same id, threading the store. -/
def pinTimes (db : List Note) (note_id : Nat) : Nat → List Note
  | 0 => db
  | n + 1 => (pin_note (pinTimes db note_id n) note_id).1

/-- One row of the `atom` table (`src/models.py`, class `Atom`): primary key
`atom_id`, unique `symbol`, `name`, unique `atomic_number`, `atomic_mass`
(a Float in the source, idealised as a rational — it is only stored and
compared, never computed with). -/
structure Atom where
  atom_id : Nat
  symbol : String
  name : String
  atomic_number : Nat
  atomic_mass : ℚ
deriving Repr, DecidableEq

/-- `AtomUpdate` (`src/schemas.py`): all fields optional; `none` means the
field was not set in the payload (`exclude_unset=True`). -/
structure AtomUpdate where
  symbol : Option String
  name : Option String
  atomic_number : Option Nat
  atomic_mass : Option ℚ
deriving Repr, DecidableEq

/-- The atom-update payload with zero present fields. -/
def AtomUpdate.empty : AtomUpdate := ⟨none, none, none, none⟩

/-- `db.query(Atom).filter(Atom.atom_id == atom_id).first()`. -/
def findAtom (db : List Atom) (atom_id : Nat) : Option Atom :=
  db.find? (fun a => a.atom_id == atom_id)

/-- `db.query(Atom).filter(Atom.symbol == value, Atom.atom_id != atom_id).first()`
is some record: another atom already holds this symbol. -/
def symbolConflict (db : List Atom) (atom_id : Nat) (value : String) : Bool :=
  db.any (fun a => a.symbol == value && !(a.atom_id == atom_id))

/-- `db.query(Atom).filter(Atom.atomic_number == value, Atom.atom_id != atom_id).first()`
is some record: another atom already holds this atomic number. -/
def numberConflict (db : List Atom) (atom_id : Nat) (value : Nat) : Bool :=
  db.any (fun a => a.atomic_number == value && !(a.atom_id == atom_id))

/-- The `setattr` loop of `update_atom`: apply every present field. -/
def applyAtomUpdate (u : AtomUpdate) (a : Atom) : Atom :=
  { a with
    symbol := u.symbol.getD a.symbol
    name := u.name.getD a.name
    atomic_number := u.atomic_number.getD a.atomic_number
    atomic_mass := u.atomic_mass.getD a.atomic_mass }

/-- `update_atom` (`src/routers/atoms.py`): 404 when the atom is absent;
400 "No fields to update" when the payload has zero set fields; then the
symbol and atomic-number uniqueness checks, each a 409 on conflict, all
before any `setattr`; finally the fields are applied, committed and the row
refreshed.  Every error branch leaves the store untouched. -/
def update_atom (db : List Atom) (atom_id : Nat) (u : AtomUpdate) :
    List Atom × Except HTTPError Atom :=
  match findAtom db atom_id with
  | none => (db, .error ⟨404, "Atom with id " ++ toString atom_id ++ " not found"⟩)
  | some db_atom =>
    if u.symbol.isNone && u.name.isNone && u.atomic_number.isNone && u.atomic_mass.isNone then
      (db, .error ⟨400, "No fields to update"⟩)
    else if (match u.symbol with
             | some s => symbolConflict db atom_id s
             | none => false) then
      (db, .error ⟨409, "Symbol already exists"⟩)
    else if (match u.atomic_number with
             | some v => numberConflict db atom_id v
             | none => false) then
      (db, .error ⟨409, "Atomic number already exists"⟩)
    else
      let db2 := db.map (fun a => if a.atom_id == atom_id then applyAtomUpdate u a else a)
      (db2, .ok (applyAtomUpdate u db_atom))

/-- An Identity: the (name, role) dict stored against each API key in
`src/security.py`. -/
structure Identity where
  name : String
  role : String
deriving Repr, DecidableEq

/-- `DEFAULT_API_KEYS` (`src/security.py`). -/
def DEFAULT_API_KEYS : List (String × Identity) :=
  [("chemapi-admin-key-2024", ⟨"admin", "admin"⟩),
   ("chemapi-user1-key-2024", ⟨"user1", "user"⟩),
   ("chemapi-user2-key-2024", ⟨"user2", "user"⟩)]

/-- `get_api_key` (`src/security.py`): the chemistry-API authenticator.
`APIKeyHeader(auto_error=False)` passes `none` through when the header is
absent; a missing key is a 401, an unknown key a 403, otherwise the mapped
identity is returned.  `keys` is `VALID_API_KEYS`. -/
def chemGetApiKey (keys : List (String × Identity)) (api_key : Option String) :
    Except HTTPError Identity :=
  match api_key with
  | none => .error ⟨401, "API Key required. Please provide X-API-Key header"⟩
  | some k =>
    match keys.find? (fun p => p.1 == k) with
    | none => .error ⟨403, "Invalid API Key"⟩
    | some p => .ok p.2

/-- `require_admin` (`src/security.py`): 403 unless the resolved identity has
role "admin". -/
def require_admin (user : Identity) : Except HTTPError Identity :=
  if user.role == "admin" then .ok user
  else .error ⟨403, "Admin access required for this operation"⟩

/-- The single admin key of the notes service (`src/app/core/security.py`,
default development value of the `API_KEY` environment variable). -/
def API_KEY : String := "admin-secret"

/-- `get_api_key` (`src/app/core/security.py`): the notes-service
authenticator.  `APIKeyHeader(auto_error=True)` itself rejects a missing
header with 403 "Not authenticated" (behaviour pinned by
`src/tests/test_auth.py`); a presented key is accepted only when it equals
`API_KEY`, otherwise 403 "Could not validate credentials". -/
def appGetApiKey (api_key : Option String) : Except HTTPError String :=
  match api_key with
  | none => .error ⟨403, "Not authenticated"⟩
  | some k =>
    if k == API_KEY then .ok k
    else .error ⟨403, "Could not validate credentials"⟩

/-- `delete_note` (`src/app/routers/notes.py`): the `get_api_key` dependency
runs first; then `DELETE FROM notes WHERE id = ?`, a 404 when no row was
affected, else a confirmation message. -/
def delete_note (db : List Note) (note_id : Nat) (api_key : Option String) :
    List Note × Except HTTPError String :=
  match appGetApiKey api_key with
  | .error e => (db, .error e)
  | .ok _ =>
    if db.any (fun n => n.id == note_id) then
      (db.filter (fun n => !(n.id == note_id)), .ok "Note deleted successfully")
    else
      (db, .error ⟨404, "Note not found"⟩)

/-- `SimpleRateLimiter` (`src/security.py`): `requests` is the
`defaultdict(list)` from identity key to the recorded request timestamps,
modelled extensionally as its lookup function (absent keys read as `[]`).
`time.time()` values are idealised as integer time points. -/
structure SimpleRateLimiter where
  requests_per_minute : Nat
  requests : String → List Int

/-- Assign `self.requests[key] = v`. -/
def setRequests (m : String → List Int) (key : String) (v : List Int) :
    String → List Int :=
  fun k => if k == key then v else m k

/-- `SimpleRateLimiter.check_rate_limit` (`src/security.py`): with
`minute_ago = now - 60`, keep only the timestamps with
`req_time > minute_ago` (re-assigning `self.requests[key]`); if at least
`requests_per_minute` remain, return false with nothing added; otherwise
append `now` and return true. -/
def check_rate_limit (rl : SimpleRateLimiter) (key : String) (now : Int) :
    SimpleRateLimiter × Bool :=
  let minute_ago := now - 60
  let pruned := (rl.requests key).filter (fun t => minute_ago < t)
  if rl.requests_per_minute ≤ pruned.length then
    ({ rl with requests := setRequests rl.requests key pruned }, false)
  else
    ({ rl with requests := setRequests rl.requests key (pruned ++ [now]) }, true)

/-- The HTTP status a client observes for an outcome (FastAPI returns 200
for a plain successful handler). -/
def statusOf {α : Type} : Except HTTPError α → Nat
  | .ok _ => 200
  | .error e => e.status

/-- The error detail a client observes (empty for success). -/
def detailOf {α : Type} : Except HTTPError α → String
  | .ok _ => ""
  | .error e => e.detail

/-- The stored-note invariant of the notes domain: topic 1..100 chars
and content 1..5000 chars (the creation/update validation bounds). -/
def ValidNote (n : Note) : Prop :=
  1 ≤ n.topic.length ∧ n.topic.length ≤ 100 ∧
  1 ≤ n.content.length ∧ n.content.length ≤ 5000

instance (n : Note) : Decidable (ValidNote n) := by
  unfold ValidNote
  exact inferInstance

/-! ### Helper lemmas -/

/-- Re-reading a row after a row-local UPDATE: when the updating function
preserves the primary key, the re-read returns the updated image of the
previously found row. -/
theorem findNote_map (db : List Note) (i : Nat) (f : Note → Note)
    (hf : ∀ n, (f n).id = n.id) :
    findNote (db.map (fun n => if n.id == i then f n else n)) i
      = (findNote db i).map f := by
  induction db with
  | nil => rfl
  | cons a tl ih =>
    unfold findNote at ih ⊢
    by_cases h : a.id = i
    · simp [h, hf a]
    · simp [h] at ih ⊢
      exact ih

/-- Membership is preserved by the descending insertion. -/
theorem mem_insertDesc (x n : Note) (l : List Note) :
    x ∈ insertDesc n l ↔ x = n ∨ x ∈ l := by
  induction l with
  | nil => simp [insertDesc]
  | cons m tl ih =>
    by_cases h : m.created_at ≤ n.created_at
    · simp [insertDesc, h]
    · simp [insertDesc, h, ih]
      tauto

/-- `ORDER BY` only reorders: membership in the sorted list is membership in
the original. -/
theorem mem_sortByCreatedDesc (x : Note) (db : List Note) :
    x ∈ sortByCreatedDesc db ↔ x ∈ db := by
  induction db with
  | nil => simp [sortByCreatedDesc]
  | cons m tl ih =>
    simp only [sortByCreatedDesc, List.foldr_cons] at ih ⊢
    rw [mem_insertDesc]
    simp [ih]

/-- A trailing bare `%` pattern matches every string. -/
theorem likeMatch_percent (s : List Char) : likeMatch ['%'] s = true := by
  induction s with
  | nil => simp [likeMatch]
  | cons c s2 ih =>
    have h2 : s2.tails.any (fun t => likeMatch [] t) = true := by
      rw [← ih]; simp [likeMatch]
    simp [likeMatch, List.tails_cons, h2]

/-- On a wildcard-free pattern `p`, the pattern `p ++ ['%']` matches exactly
the strings that start (case-insensitively) with `p`. -/
theorem likeMatch_append_percent (p : List Char) (hp : noWildcards p = true) :
    ∀ s : List Char, likeMatch (p ++ ['%']) s = headMatchCI p s := by
  induction p with
  | nil => intro s; simpa [headMatchCI] using likeMatch_percent s
  | cons a p2 ih =>
    intro s
    simp only [noWildcards, List.all_cons, Bool.and_eq_true, Bool.not_eq_true',
      beq_eq_false_iff_ne, ne_eq] at hp
    obtain ⟨⟨ha1, ha2⟩, hp2⟩ := hp
    have ih2 := ih (by simp [noWildcards, hp2])
    cases s with
    | nil => simp [likeMatch, headMatchCI, ha1]
    | cons c s2 =>
      simp [likeMatch, headMatchCI, ha1, ha2, ih2 s2]

/-- Scanning all suffixes for a case-insensitive head match is exactly
case-insensitive containment. -/
theorem tails_any_headMatchCI (needle hay : List Char) :
    hay.tails.any (fun t => headMatchCI needle t) = containsCI needle hay := by
  induction hay with
  | nil => simp [containsCI, List.tails]
  | cons c s2 ih => simp [containsCI, List.tails_cons, ih]

/-- The pattern `%needle%` with a wildcard-free needle matches exactly the
strings containing `needle` (case-insensitively). -/
theorem likeMatch_contains (needle : List Char) (hn : noWildcards needle = true)
    (hay : List Char) :
    likeMatch ('%' :: needle ++ ['%']) hay = containsCI needle hay := by
  have h1 : ∀ t : List Char, likeMatch (needle ++ ['%']) t = headMatchCI needle t :=
    likeMatch_append_percent needle hn
  simp [likeMatch, h1, tails_any_headMatchCI needle hay]

/-- `vote_note` on an absent id is a 404 with the store untouched. -/
theorem vote_note_notfound (db : List Note) (i : Nat) (h : findNote db i = none) :
    vote_note db i = (db, .error ⟨404, "Note not found"⟩) := by
  unfold vote_note
  rw [h]

/-- `vote_note` on a present id: the store gets the single-row UPDATE and the
refreshed row is returned. -/
theorem vote_note_found (db : List Note) (i : Nat) (n : Note)
    (h : findNote db i = some n) :
    vote_note db i =
      (db.map (fun m => if m.id == i then { m with votes := m.votes + 1 } else m),
       .ok { n with votes := n.votes + 1 }) := by
  have h2 : findNote
      (db.map (fun m => if m.id == i then { m with votes := m.votes + 1 } else m)) i
      = some { n with votes := n.votes + 1 } := by
    rw [findNote_map db i (fun m => { m with votes := m.votes + 1 }) (fun m => rfl), h]
    rfl
  unfold vote_note
  rw [h]
  dsimp only
  rw [h2]

/-- N votes on a present row add N to its vote counter. -/
theorem voteTimes_found (db : List Note) (i : Nat) (n : Note)
    (h : findNote db i = some n) :
    ∀ N, findNote (voteTimes db i N) i = some { n with votes := n.votes + N } := by
  intro N
  induction N with
  | zero => exact h
  | succ k ihk =>
    have h1 := vote_note_found (voteTimes db i k) i _ ihk
    simp only [voteTimes, h1]
    rw [findNote_map _ i (fun m => { m with votes := m.votes + 1 }) (fun m => rfl), ihk]
    rfl

/-- `pin_note` on an absent id is a 404 with the store untouched. -/
theorem pin_note_notfound (db : List Note) (i : Nat) (h : findNote db i = none) :
    pin_note db i = (db, .error ⟨404, "Note not found"⟩) := by
  unfold pin_note
  rw [h]

/-- `pin_note` on a present id: the store gets the single-row UPDATE and the
refreshed row is returned. -/
theorem pin_note_found (db : List Note) (i : Nat) (n : Note)
    (h : findNote db i = some n) :
    pin_note db i =
      (db.map (fun m => if m.id == i then { m with pinned := true } else m),
       .ok { n with pinned := true }) := by
  have h2 : findNote
      (db.map (fun m => if m.id == i then { m with pinned := true } else m)) i
      = some { n with pinned := true } := by
    rw [findNote_map db i (fun m => { m with pinned := true }) (fun m => rfl), h]
    rfl
  unfold pin_note
  rw [h]
  dsimp only
  rw [h2]

/-- Setting `pinned = 1` on a row is idempotent, pointwise. -/
theorem pinUpd_idem (i : Nat) (m : Note) :
    (fun m : Note => if m.id == i then { m with pinned := true } else m)
      ((fun m : Note => if m.id == i then { m with pinned := true } else m) m)
    = (fun m : Note => if m.id == i then { m with pinned := true } else m) m := by
  by_cases h : (m.id == i) = true <;> simp [h]

/-- Pinning twice leaves the same store as pinning once. -/
theorem pin_pin (db : List Note) (i : Nat) :
    (pin_note (pin_note db i).1 i).1 = (pin_note db i).1 := by
  cases h : findNote db i with
  | none => simp [pin_note_notfound db i h]
  | some n =>
    have h1 := pin_note_found db i n h
    have h2 : findNote (pin_note db i).1 i = some { n with pinned := true } := by
      rw [h1]
      rw [findNote_map db i (fun m => { m with pinned := true }) (fun m => rfl), h]
      rfl
    rw [pin_note_found _ i _ h2, h1]
    simp only [List.map_map]
    exact congrArg (fun g => List.map g db) (funext (fun m => pinUpd_idem i m))

/-- Any positive number of pins leaves the same store as a single pin. -/
theorem pinTimes_stable (db : List Note) (i : Nat) :
    ∀ k, pinTimes db i (k + 1) = pinTimes db i 1 := by
  intro k
  induction k with
  | zero => rfl
  | succ j ihj =>
    show (pin_note (pinTimes db i (j + 1)) i).1 = _
    rw [ihj]
    exact pin_pin db i

/-- After any positive number of pins the row reads back with `pinned = true`
and every other field intact. -/
theorem pinTimes_found (db : List Note) (i : Nat) (n : Note)
    (h : findNote db i = some n) :
    ∀ k, findNote (pinTimes db i (k + 1)) i = some { n with pinned := true } := by
  intro k
  rw [pinTimes_stable db i k]
  show findNote (pin_note db i).1 i = some { n with pinned := true }
  rw [pin_note_found db i n h]
  rw [findNote_map db i (fun m => { m with pinned := true }) (fun m => rfl), h]
  rfl

/-! ### Claim theorems -/

/-- **C1**: the vote operation 404s when no record has the id; otherwise it
runs the single-row `votes = votes + 1` UPDATE — every other field of every
row untouched — and returns the refreshed record, so N votes on a record
created with `votes = 0` yield `votes = N`. -/
theorem claim_C1_vote (db : List Note) (i : Nat) :
    (findNote db i = none → vote_note db i = (db, .error ⟨404, "Note not found"⟩)) ∧
    (∀ n, findNote db i = some n →
      vote_note db i =
        (db.map (fun m => if m.id == i then { m with votes := m.votes + 1 } else m),
         .ok { n with votes := n.votes + 1 })) ∧
    (∀ N n, findNote db i = some n → n.votes = 0 →
      findNote (voteTimes db i N) i = some { n with votes := N }) := by
  refine ⟨fun h => vote_note_notfound db i h, fun n h => vote_note_found db i n h, ?_⟩
  intro N n h hv
  have h2 := voteTimes_found db i n h N
  rw [hv, Nat.zero_add] at h2
  exact h2

/-- Witness for C1: voting in the empty store 404s; three votes on a fresh
note with id 1 yield `votes = 3`. -/
theorem claim_C1_vote_witness :
    vote_note [] 7 = ([], .error ⟨404, "Note not found"⟩) ∧
    findNote (voteTimes [⟨1, "T", "C", "Anonymous", 5, 0, false⟩] 1 3) 1
      = some ⟨1, "T", "C", "Anonymous", 5, 3, false⟩ :=
  ⟨(claim_C1_vote [] 7).1 rfl,
   (claim_C1_vote [⟨1, "T", "C", "Anonymous", 5, 0, false⟩] 1).2.2 3
     ⟨1, "T", "C", "Anonymous", 5, 0, false⟩ rfl rfl⟩

/-- **C2**: the pin operation 404s when the record is absent; otherwise it
sets `pinned = true` unconditionally and is idempotent: any positive number
of repeated calls leaves the store equal to a single call's, and the record
reads back with `pinned = true` and every other field at its pre-pin value. -/
theorem claim_C2_pin (db : List Note) (i : Nat) :
    (findNote db i = none → pin_note db i = (db, .error ⟨404, "Note not found"⟩)) ∧
    (∀ n, findNote db i = some n →
      pin_note db i =
        (db.map (fun m => if m.id == i then { m with pinned := true } else m),
         .ok { n with pinned := true })) ∧
    (∀ N n, findNote db i = some n → 1 ≤ N →
      findNote (pinTimes db i N) i = some { n with pinned := true }) ∧
    (∀ N, 1 ≤ N → pinTimes db i N = pinTimes db i 1) := by
  refine ⟨fun h => pin_note_notfound db i h, fun n h => pin_note_found db i n h, ?_, ?_⟩
  · intro N n h hN
    obtain ⟨k, rfl⟩ := Nat.exists_eq_add_of_le hN
    rw [Nat.add_comm 1 k]
    exact pinTimes_found db i n h k
  · intro N hN
    obtain ⟨k, rfl⟩ := Nat.exists_eq_add_of_le hN
    rw [Nat.add_comm 1 k]
    exact pinTimes_stable db i k

/-- Witness for C2: pinning in the empty store 404s; pinning the same note
three times equals pinning it once, and it reads back pinned with all other
fields intact. -/
theorem claim_C2_pin_witness :
    pin_note [] 7 = ([], .error ⟨404, "Note not found"⟩) ∧
    findNote (pinTimes [⟨1, "T", "C", "Anonymous", 5, 2, false⟩] 1 3) 1
      = some ⟨1, "T", "C", "Anonymous", 5, 2, true⟩ ∧
    pinTimes [⟨1, "T", "C", "Anonymous", 5, 2, false⟩] 1 3
      = pinTimes [⟨1, "T", "C", "Anonymous", 5, 2, false⟩] 1 1 :=
  ⟨(claim_C2_pin [] 7).1 rfl,
   (claim_C2_pin [⟨1, "T", "C", "Anonymous", 5, 2, false⟩] 1).2.2.1 3
     ⟨1, "T", "C", "Anonymous", 5, 2, false⟩ rfl (by decide),
   (claim_C2_pin [⟨1, "T", "C", "Anonymous", 5, 2, false⟩] 1).2.2.2 3 (by decide)⟩

/-- **C3**: a partial update with zero present fields is a 200 returning the
unchanged record on an existing note, but a 400 "No fields to update" on an
existing atom; in both domains the store is not mutated. -/
theorem claim_C3_empty_update (db : List Note) (adb : List Atom) (i j : Nat) :
    (∀ n, findNote db i = some n →
      update_note db i NoteUpdate.empty = (db, .ok n)) ∧
    (∀ a, findAtom adb j = some a →
      update_atom adb j AtomUpdate.empty = (adb, .error ⟨400, "No fields to update"⟩)) := by
  constructor
  · intro n h
    unfold update_note
    rw [h]
    rfl
  · intro a h
    unfold update_atom
    rw [h]
    rfl

/-- Witness for C3: the empty payload succeeds unchanged on a stored note and
400s on a stored atom. -/
theorem claim_C3_empty_update_witness :
    update_note [⟨1, "T", "C", "A", 0, 0, false⟩] 1 NoteUpdate.empty
      = ([⟨1, "T", "C", "A", 0, 0, false⟩], .ok ⟨1, "T", "C", "A", 0, 0, false⟩) ∧
    update_atom [⟨1, "H", "Hydrogen", 1, 1⟩] 1 AtomUpdate.empty
      = ([⟨1, "H", "Hydrogen", 1, 1⟩], .error ⟨400, "No fields to update"⟩) :=
  ⟨(claim_C3_empty_update [⟨1, "T", "C", "A", 0, 0, false⟩] [] 1 0).1
     ⟨1, "T", "C", "A", 0, 0, false⟩ rfl,
   (claim_C3_empty_update [] [⟨1, "H", "Hydrogen", 1, 1⟩] 0 1).2
     ⟨1, "H", "Hydrogen", 1, 1⟩ rfl⟩

/-- **C4**: updating an existing atom's symbol (or atomic number) to a value
already held by a different atom is a 409 that leaves the whole store — both
the target and the conflicting atom — unchanged: the uniqueness checks run
before any field is applied. -/
theorem claim_C4_atom_conflict (db : List Atom) (j : Nat) (u : AtomUpdate) :
    (∀ a s, findAtom db j = some a → u.symbol = some s →
      symbolConflict db j s = true →
      update_atom db j u = (db, .error ⟨409, "Symbol already exists"⟩)) ∧
    (∀ a v, findAtom db j = some a → u.atomic_number = some v →
      (∀ s, u.symbol = some s → symbolConflict db j s = false) →
      numberConflict db j v = true →
      update_atom db j u = (db, .error ⟨409, "Atomic number already exists"⟩)) := by
  constructor
  · intro a s hf hs hc
    unfold update_atom
    rw [hf, hs]
    simp [hc]
  · intro a v hf hv hns hc
    unfold update_atom
    rw [hf, hv]
    cases hsym : u.symbol with
    | none => simp [hc]
    | some s => simp [hns s hsym, hc]

/-- Witness for C4: giving Helium Hydrogen's symbol, or Hydrogen's atomic
number, is a 409 with the two-atom store intact. -/
theorem claim_C4_atom_conflict_witness :
    update_atom [⟨1, "H", "Hydrogen", 1, 1⟩, ⟨2, "He", "Helium", 2, 4⟩] 2
        ⟨some "H", none, none, none⟩
      = ([⟨1, "H", "Hydrogen", 1, 1⟩, ⟨2, "He", "Helium", 2, 4⟩],
         .error ⟨409, "Symbol already exists"⟩) ∧
    update_atom [⟨1, "H", "Hydrogen", 1, 1⟩, ⟨2, "He", "Helium", 2, 4⟩] 2
        ⟨none, none, some 1, none⟩
      = ([⟨1, "H", "Hydrogen", 1, 1⟩, ⟨2, "He", "Helium", 2, 4⟩],
         .error ⟨409, "Atomic number already exists"⟩) :=
  ⟨(claim_C4_atom_conflict [⟨1, "H", "Hydrogen", 1, 1⟩, ⟨2, "He", "Helium", 2, 4⟩] 2
      ⟨some "H", none, none, none⟩).1 ⟨2, "He", "Helium", 2, 4⟩ "H" rfl rfl (by decide),
   (claim_C4_atom_conflict [⟨1, "H", "Hydrogen", 1, 1⟩, ⟨2, "He", "Helium", 2, 4⟩] 2
      ⟨none, none, some 1, none⟩).2 ⟨2, "He", "Helium", 2, 4⟩ 1 rfl rfl
     (fun s hs => Option.noConfusion hs) (by decide)⟩

/-- **C7**: on any valid creation payload, the created record's author is
"Anonymous" exactly when the payload omitted the author, and the supplied
string verbatim otherwise. -/
theorem claim_C7_author_default (db : List Note) (nextId now : Nat)
    (p : NoteCreate) (_hv : NoteCreateValid p) :
    (p.author = none → (create_note db nextId now p).2.author = "Anonymous") ∧
    (∀ a, p.author = some a → (create_note db nextId now p).2.author = a) := by
  constructor
  · intro h
    simp [create_note, h]
  · intro a h
    simp [create_note, h]

/-- Witness for C7 on two concrete valid payloads. -/
theorem claim_C7_author_default_witness :
    (create_note [] 1 0 ⟨"T", "C", none⟩).2.author = "Anonymous" ∧
    (create_note [] 1 0 ⟨"T", "C", some "bob"⟩).2.author = "bob" :=
  ⟨(claim_C7_author_default [] 1 0 ⟨"T", "C", none⟩ (by decide)).1 rfl,
   (claim_C7_author_default [] 1 0 ⟨"T", "C", some "bob"⟩ (by decide)).2 "bob" rfl⟩

/-- **C5**: `check_rate_limit` re-records the key's timestamp list pruned by
the 60-second window (strictly newer than `now - 60` survives, so "older
than now − 60" includes the boundary timestamp itself), then rejects with
nothing appended iff at least `requests_per_minute` timestamps remain, and
otherwise appends `now` and admits; other keys and the configured limit are
untouched. -/
theorem claim_C5_rate_limiter (rl : SimpleRateLimiter) (key : String) (now : Int) :
    ((check_rate_limit rl key now).2
      = decide (((rl.requests key).filter (fun t => now - 60 < t)).length
          < rl.requests_per_minute)) ∧
    (∀ k2, (check_rate_limit rl key now).1.requests k2
      = if k2 == key then
          (if (check_rate_limit rl key now).2
           then ((rl.requests key).filter (fun t => now - 60 < t)) ++ [now]
           else (rl.requests key).filter (fun t => now - 60 < t))
        else rl.requests k2) ∧
    ((check_rate_limit rl key now).1.requests_per_minute = rl.requests_per_minute) := by
  unfold check_rate_limit
  by_cases h : rl.requests_per_minute
      ≤ ((rl.requests key).filter (fun t => now - 60 < t)).length
  · have h2 : ¬ (((rl.requests key).filter (fun t => now - 60 < t)).length
        < rl.requests_per_minute) := Nat.not_lt.mpr h
    simp [h, h2, setRequests]
  · have h2 : ((rl.requests key).filter (fun t => now - 60 < t)).length
        < rl.requests_per_minute := Nat.lt_of_not_le h
    simp [h, h2, setRequests]

/-- **C10**: in the note-listing operation an empty-string query filter is
exactly an absent filter (Python truthiness of `if topic:` / `if author:` /
`if search:`): each empty-string parameter position gives the same result as
passing no parameter. -/
theorem claim_C10_empty_filter (db : List Note) (x y : Option String) :
    read_notes db (some "") x y = read_notes db none x y ∧
    read_notes db x (some "") y = read_notes db x none y ∧
    read_notes db x y (some "") = read_notes db x y none :=
  ⟨rfl, rfl, rfl⟩

/-- **C8 counterexample**: on the notes delete endpoint a request with no
`X-API-Key` header is rejected with status 403 (detail "Not authenticated",
from `APIKeyHeader(auto_error=True)`, as `src/tests/test_auth.py` asserts),
not 401 — the same status code as an invalid key, so the claim's
401-for-missing-credential is false for the delete operation. -/
theorem claim_C8_counterexample :
    statusOf (delete_note [⟨1, "T", "C", "Anonymous", 0, 0, false⟩] 1 none).2 = 403 ∧
    detailOf (delete_note [⟨1, "T", "C", "Anonymous", 0, 0, false⟩] 1 none).2
      = "Not authenticated" ∧
    statusOf (delete_note [⟨1, "T", "C", "Anonymous", 0, 0, false⟩] 1
        (some "wrong-key")).2 = 403 ∧
    (403 : Nat) ≠ 401 := by
  refine ⟨rfl, rfl, ?_, by decide⟩
  rfl

/-- **C8 (amended)**: in the notes service, a delete with no key and a delete
with a wrong key both fail with status 403, distinguished only by the detail
("Not authenticated" vs "Could not validate credentials"); the
401-on-missing / 403-on-invalid-key / 403-on-insufficient-role split holds
for the chemistry API's authenticator (`get_api_key` and `require_admin` in
`src/security.py`). -/
theorem claim_C8_auth_statuses :
    (∀ db i, statusOf (delete_note db i none).2 = 403 ∧
       detailOf (delete_note db i none).2 = "Not authenticated") ∧
    (∀ db i k, k ≠ API_KEY →
       statusOf (delete_note db i (some k)).2 = 403 ∧
       detailOf (delete_note db i (some k)).2 = "Could not validate credentials") ∧
    (∀ keys, statusOf (chemGetApiKey keys none) = 401) ∧
    (∀ keys k, keys.find? (fun p => p.1 == k) = none →
       statusOf (chemGetApiKey keys (some k)) = 403) ∧
    (∀ u : Identity, u.role ≠ "admin" → statusOf (require_admin u) = 403) := by
  refine ⟨?_, ?_, ?_, ?_, ?_⟩
  · intro db i
    exact ⟨rfl, rfl⟩
  · intro db i k hk
    have h1 : (k == API_KEY) = false := by simp [hk]
    constructor <;> simp [delete_note, appGetApiKey, h1, statusOf, detailOf]
  · intro keys
    rfl
  · intro keys k h
    simp [chemGetApiKey, h, statusOf]
  · intro u hu
    have h1 : (u.role == "admin") = false := by simp [hu]
    simp [require_admin, h1, statusOf]

/-- Witness for the amended C8 at concrete keys and identities. -/
theorem claim_C8_auth_statuses_witness :
    statusOf (delete_note [] 1 (some "bad")).2 = 403 ∧
    statusOf (chemGetApiKey DEFAULT_API_KEYS (some "bad")) = 403 ∧
    statusOf (require_admin ⟨"user1", "user"⟩) = 403 :=
  ⟨(claim_C8_auth_statuses.2.1 [] 1 "bad" (by decide)).1,
   claim_C8_auth_statuses.2.2.2.1 DEFAULT_API_KEYS "bad" (by decide),
   claim_C8_auth_statuses.2.2.2.2 ⟨"user1", "user"⟩ (by decide)⟩

/-- **C6 counterexample**: searching for "a_c" returns the note whose content
is "abc" — the SQL `LIKE` underscore reaches the query as a single-character
wildcard — although "abc" does not contain the string "a_c" under any case
rule: "abc" holds no underscore at all. -/
theorem claim_C6_counterexample :
    read_notes [⟨1, "T", "abc", "Anonymous", 0, 0, false⟩] none none (some "a_c")
      = [⟨1, "T", "abc", "Anonymous", 0, 0, false⟩] ∧
    containsCI "a_c".data "abc".data = false ∧
    "abc".data.all (fun c => !(c == '_')) = true := by
  refine ⟨by decide, by decide, by decide⟩

/-- **C6 (amended)**: for every non-empty search string free of the SQL
`LIKE` metacharacters `%` and `_`, listing with only the search filter
returns exactly the stored records whose content contains the string under
ASCII-case-insensitive comparison (SQLite's default `LIKE` case rule), and
no record outside that subset. -/
theorem claim_C6_search_filter (db : List Note) (s : String)
    (hne : s.isEmpty = false) (hw : noWildcards s.data = true) (n : Note) :
    n ∈ read_notes db none none (some s) ↔
      n ∈ db ∧ containsCI s.data n.content.data = true := by
  have ht : truthy (some s) = true := by simp [truthy, hne]
  unfold read_notes
  simp only [ht, if_true, Option.getD_some]
  have h0 : truthy (none : Option String) = false := rfl
  simp only [h0, Bool.false_eq_true, if_false]
  rw [mem_sortByCreatedDesc, List.mem_filter]
  rw [likeMatch_contains s.data hw n.content.data]

/-- Witness for the amended C6: the note containing "AbC" is listed for the
search string "abc". -/
theorem claim_C6_search_filter_witness :
    (⟨1, "T", "xAbCy", "A", 0, 0, false⟩ : Note)
      ∈ read_notes [⟨1, "T", "xAbCy", "A", 0, 0, false⟩] none none (some "abc") :=
  (claim_C6_search_filter [⟨1, "T", "xAbCy", "A", 0, 0, false⟩] "abc"
      (by decide) (by decide) ⟨1, "T", "xAbCy", "A", 0, 0, false⟩).mpr
    ⟨by decide, by decide⟩

/-- A validated partial update applied to a valid row yields a valid row. -/
theorem validNote_applyNoteUpdate (u : NoteUpdate) (hu : NoteUpdateValid u)
    (m : Note) (hm : ValidNote m) : ValidNote (applyNoteUpdate u m) := by
  obtain ⟨hut, huc, _⟩ := hu
  have h1 : 1 ≤ (u.topic.getD m.topic).length ∧ (u.topic.getD m.topic).length ≤ 100 := by
    cases ht : u.topic with
    | none => exact ⟨hm.1, hm.2.1⟩
    | some t => exact hut t ht
  have h2 : 1 ≤ (u.content.getD m.content).length ∧
      (u.content.getD m.content).length ≤ 5000 := by
    cases hc : u.content with
    | none => exact ⟨hm.2.2.1, hm.2.2.2⟩
    | some c => exact huc c hc
  exact ⟨h1.1, h1.2, h2.1, h2.2⟩

/-- **C9**: the topic/content bounds hold for every stored note across every
operation: creation with a validated payload, partial update with a
validated payload, vote, pin and delete each map a store of valid notes to a
store of valid notes. -/
theorem claim_C9_validity_invariant (db : List Note) (hdb : ∀ n ∈ db, ValidNote n) :
    (∀ nextId now p, NoteCreateValid p →
      ∀ n ∈ (create_note db nextId now p).1, ValidNote n) ∧
    (∀ i u, NoteUpdateValid u → ∀ n ∈ (update_note db i u).1, ValidNote n) ∧
    (∀ i, ∀ n ∈ (vote_note db i).1, ValidNote n) ∧
    (∀ i, ∀ n ∈ (pin_note db i).1, ValidNote n) ∧
    (∀ i k, ∀ n ∈ (delete_note db i k).1, ValidNote n) := by
  refine ⟨?_, ?_, ?_, ?_, ?_⟩
  · intro nextId now p hp n hn
    simp only [create_note, List.mem_append, List.mem_singleton] at hn
    rcases hn with hn | rfl
    · exact hdb n hn
    · exact ⟨hp.1, hp.2.1, hp.2.2.1, hp.2.2.2.1⟩
  · intro i u hu n hn
    unfold update_note at hn
    cases hf : findNote db i with
    | none =>
      rw [hf] at hn
      exact hdb n hn
    | some m =>
      rw [hf] at hn
      by_cases hcond : (u.topic.isNone && u.content.isNone && u.author.isNone) = true
      · simp only [hcond, if_true] at hn
        exact hdb n hn
      · have hcond2 : (u.topic.isNone && u.content.isNone && u.author.isNone) = false :=
          Bool.not_eq_true _ ▸ (Bool.eq_false_iff.mpr hcond)
        simp only [hcond2, Bool.false_eq_true, if_false] at hn
        cases hf2 : findNote
            (db.map (fun m => if m.id == i then applyNoteUpdate u m else m)) i with
        | none =>
          rw [hf2] at hn
          simp only [List.mem_map] at hn
          obtain ⟨m2, hm2, rfl⟩ := hn
          by_cases h3 : (m2.id == i) = true
          · simp only [h3, if_true]
            exact validNote_applyNoteUpdate u hu m2 (hdb m2 hm2)
          · simp only [h3, Bool.false_eq_true, if_false]
            exact hdb m2 hm2
        | some w =>
          rw [hf2] at hn
          simp only [List.mem_map] at hn
          obtain ⟨m2, hm2, rfl⟩ := hn
          by_cases h3 : (m2.id == i) = true
          · simp only [h3, if_true]
            exact validNote_applyNoteUpdate u hu m2 (hdb m2 hm2)
          · simp only [h3, Bool.false_eq_true, if_false]
            exact hdb m2 hm2
  · intro i n hn
    unfold vote_note at hn
    cases hf : findNote db i with
    | none =>
      rw [hf] at hn
      exact hdb n hn
    | some m =>
      rw [hf] at hn
      dsimp only at hn
      have hmem : n ∈ db.map
          (fun m => if m.id == i then { m with votes := m.votes + 1 } else m) := by
        cases hf2 : findNote
            (db.map (fun m => if m.id == i then { m with votes := m.votes + 1 } else m))
            i with
        | none => rw [hf2] at hn; exact hn
        | some w => rw [hf2] at hn; exact hn
      simp only [List.mem_map] at hmem
      obtain ⟨m2, hm2, rfl⟩ := hmem
      by_cases h3 : (m2.id == i) = true
      · simp only [h3, if_true]
        exact hdb m2 hm2
      · simp only [h3, Bool.false_eq_true, if_false]
        exact hdb m2 hm2
  · intro i n hn
    unfold pin_note at hn
    cases hf : findNote db i with
    | none =>
      rw [hf] at hn
      exact hdb n hn
    | some m =>
      rw [hf] at hn
      dsimp only at hn
      have hmem : n ∈ db.map
          (fun m => if m.id == i then { m with pinned := true } else m) := by
        cases hf2 : findNote
            (db.map (fun m => if m.id == i then { m with pinned := true } else m)) i with
        | none => rw [hf2] at hn; exact hn
        | some w => rw [hf2] at hn; exact hn
      simp only [List.mem_map] at hmem
      obtain ⟨m2, hm2, rfl⟩ := hmem
      by_cases h3 : (m2.id == i) = true
      · simp only [h3, if_true]
        exact hdb m2 hm2
      · simp only [h3, Bool.false_eq_true, if_false]
        exact hdb m2 hm2
  · intro i k n hn
    unfold delete_note at hn
    cases happ : appGetApiKey k with
    | error e =>
      rw [happ] at hn
      exact hdb n hn
    | ok w =>
      rw [happ] at hn
      by_cases hany : (db.any (fun n => n.id == i)) = true
      · simp only [hany, if_true] at hn
        exact hdb n (List.mem_filter.mp hn).1
      · have hany2 : (db.any (fun n => n.id == i)) = false :=
          Bool.eq_false_iff.mpr hany
        simp only [hany2, Bool.false_eq_true, if_false] at hn
        exact hdb n hn

/-- Witness for C9: a validated topic update of a valid one-note store leaves
a valid note. -/
theorem claim_C9_validity_invariant_witness :
    ValidNote ⟨1, "T2", "C", "Anonymous", 0, 0, false⟩ :=
  (claim_C9_validity_invariant [⟨1, "T", "C", "Anonymous", 0, 0, false⟩]
      (by decide)).2.1 1 ⟨some "T2", none, none⟩ (by decide)
    ⟨1, "T2", "C", "Anonymous", 0, 0, false⟩ (by decide)
